import Mathlib

/-!
# quicx: dial, listen, accept and the dispatch loop

A shallow embedding of `dial.go` and `listen.go`.

The package only orchestrates external collaborators (`net.ResolveUDPAddr`,
`net.ListenUDP`, `quic.DialAddr`, `quic.Listen`, the QUIC listener's `Accept`, the
session's `OpenStreamSync` / `AcceptStream`, and the caller's `net.Listener`,
`Handler` and `context.Context`).  Each collaborator is a field of an explicit
environment record acting on a world state `σ`; every function of the package takes
the world in, hands the world back, and records the collaborator calls it made, so
that "this step was never attempted" is a statement about the recorded calls.

Pointers are modelled by identities (`Nat`), Go's `(value, error)` return pairs by
`Option _ × Option GoError`, with `none` for `nil`.
-/

namespace Quicx

/-! ## Data model -/

/-- Go `error` values. `opError` is a freshly allocated `*net.OpError` wrapping
another error; `base` stands for any error a collaborator produced. -/
inductive GoError where
  | base (code : Nat)
  | opError (op : String) (net : String) (source : Option String) (addr : Option String)
      (err : GoError)
  deriving DecidableEq, Repr

/-- A `*net.UDPAddr`. -/
structure UDPAddr where
  ip : List Nat
  port : Nat
  deriving DecidableEq, Repr

/-- The value `net.IPv4zero`. -/
def IPv4zero : List Nat := [0, 0, 0, 0]

/-- A `*net.UDPConn`, identified by the socket it wraps. -/
structure UDPConn where
  id : Nat
  deriving DecidableEq, Repr

/-- A QUIC session (`quic.Connection`). -/
structure Session where
  id : Nat
  deriving DecidableEq, Repr

/-- A QUIC stream (`quic.Stream`). -/
structure Stream where
  id : Nat
  deriving DecidableEq, Repr

/-- A `*quic.Listener`, the session acceptor. -/
structure QuicListener where
  id : Nat
  deriving DecidableEq, Repr

/-- A `*tls.Config`, passed through unexamined. -/
structure TLSConfig where
  id : Nat
  deriving DecidableEq, Repr

/-- A `*quic.Config`, passed through unexamined. -/
structure Config where
  id : Nat
  deriving DecidableEq, Repr

/-- Modelled from the spec: the connection handle type `Quic`, whose declaration is
not among the source files. The spec describes it as the composition of socket,
session and stream; the field names are the ones the composite literals in `Dial`
and `listener.Accept` use. -/
structure Quic where
  conn : UDPConn
  qconn : Session
  stream : Stream
  deriving DecidableEq, Repr

/-- The `listener` struct of `listen.go`. -/
structure listener where
  conn : UDPConn
  quicServer : QuicListener
  deriving DecidableEq, Repr

/-- What a library collaborator hands back: a value with a nil error, or a non-nil
error. -/
inductive Res (α : Type) where
  | ok (v : α)
  | err (e : GoError)
  deriving DecidableEq, Repr

/-- One call made to an external collaborator, with its arguments and its outcome.
`udpClose` is `(*net.UDPConn).Close`, the only way a bound socket is released. -/
inductive Call where
  | resolveUDPAddr (network : String) (laddr : String) (r : Res UDPAddr)
  | listenUDP (network : String) (laddr : UDPAddr) (r : Res UDPConn)
  | dialAddr (addr : String) (tlsConfig : TLSConfig) (quicConfig : Config) (r : Res Session)
  | openStreamSync (s : Session) (r : Res Stream)
  | quicListen (conn : UDPConn) (tlsConfig : TLSConfig) (quicConfig : Config)
      (r : Res QuicListener)
  | quicAccept (ln : QuicListener) (r : Res Session)
  | acceptStream (s : Session) (r : Res Stream)
  | udpClose (conn : UDPConn)
  deriving DecidableEq, Repr

/-- The external collaborators of `Dial`, `Listen` and `listener.Accept`, as
transitions of a world state `σ`. -/
structure World (σ : Type) where
  resolveUDPAddr : String → String → σ → Res UDPAddr × σ
  listenUDP : String → UDPAddr → σ → Res UDPConn × σ
  dialAddr : String → TLSConfig → Config → σ → Res Session × σ
  openStreamSync : Session → σ → Res Stream × σ
  quicListen : UDPConn → TLSConfig → Config → σ → Res QuicListener × σ
  quicAccept : QuicListener → σ → Res Session × σ
  acceptStream : Session → σ → Res Stream × σ

/-- What a call of the package leaves behind: the Go return pair, the collaborator
calls made (oldest first) and the world afterwards. -/
structure Ret (σ : Type) (α : Type) where
  result : Option α × Option GoError
  calls : List Call
  world : σ
  deriving DecidableEq

/-! ## `dial.go` -/

/-- The function `Dial` of `dial.go`. -/
def Dial {σ : Type} (W : World σ) (addr : String) (tlsConfig : TLSConfig)
    (quicConfig : Config) (w : σ) : Ret σ Quic :=
  match W.listenUDP "udp" ⟨IPv4zero, 0⟩ w with
  | (.err err, w1) =>
    ⟨(none, some err), [.listenUDP "udp" ⟨IPv4zero, 0⟩ (.err err)], w1⟩
  | (.ok udpConn, w1) =>
    match W.dialAddr addr tlsConfig quicConfig w1 with
    | (.err err, w2) =>
      ⟨(none, some err),
        [.listenUDP "udp" ⟨IPv4zero, 0⟩ (.ok udpConn),
         .dialAddr addr tlsConfig quicConfig (.err err)], w2⟩
    | (.ok quicSession, w2) =>
      match W.openStreamSync quicSession w2 with
      | (.err err, w3) =>
        ⟨(none, some err),
          [.listenUDP "udp" ⟨IPv4zero, 0⟩ (.ok udpConn),
           .dialAddr addr tlsConfig quicConfig (.ok quicSession),
           .openStreamSync quicSession (.err err)], w3⟩
      | (.ok stream, w3) =>
        ⟨(some { conn := udpConn, qconn := quicSession, stream := stream }, none),
          [.listenUDP "udp" ⟨IPv4zero, 0⟩ (.ok udpConn),
           .dialAddr addr tlsConfig quicConfig (.ok quicSession),
           .openStreamSync quicSession (.ok stream)], w3⟩

/-- The sockets a sequence of collaborator calls leaves open: every socket a
successful `net.ListenUDP` returned and no later `Close` released. -/
def openSockets : List Call → List UDPConn
  | [] => []
  | .listenUDP _ _ (.ok c) :: rest =>
    if rest.contains (.udpClose c) then openSockets rest else c :: openSockets rest
  | _ :: rest => openSockets rest

/-! ## `listen.go`: `Listen` and `listener.Accept` -/

/-- The function `Listen` of `listen.go`. -/
def Listen {σ : Type} (W : World σ) (network laddr : String) (tlsConfig : TLSConfig)
    (quicConfig : Config) (w : σ) : Ret σ listener :=
  match W.resolveUDPAddr network laddr w with
  | (.err err, w1) =>
    ⟨(none, some (.opError "listen" network none none err)),
      [.resolveUDPAddr network laddr (.err err)], w1⟩
  | (.ok udpAddr, w1) =>
    match W.listenUDP network udpAddr w1 with
    | (.err err, w2) =>
      ⟨(none, some err),
        [.resolveUDPAddr network laddr (.ok udpAddr),
         .listenUDP network udpAddr (.err err)], w2⟩
    | (.ok conn, w2) =>
      match W.quicListen conn tlsConfig quicConfig w2 with
      | (.err err, w3) =>
        ⟨(none, some err),
          [.resolveUDPAddr network laddr (.ok udpAddr),
           .listenUDP network udpAddr (.ok conn),
           .quicListen conn tlsConfig quicConfig (.err err)], w3⟩
      | (.ok ln, w3) =>
        ⟨(some { conn := conn, quicServer := ln }, none),
          [.resolveUDPAddr network laddr (.ok udpAddr),
           .listenUDP network udpAddr (.ok conn),
           .quicListen conn tlsConfig quicConfig (.ok ln)], w3⟩

/-- The method `(*listener).Accept` of `listen.go`. -/
def listener.Accept {σ : Type} (W : World σ) (x : listener) (w : σ) : Ret σ Quic :=
  match W.quicAccept x.quicServer w with
  | (.err err, w1) =>
    ⟨(none, some err), [.quicAccept x.quicServer (.err err)], w1⟩
  | (.ok conn, w1) =>
    match W.acceptStream conn w1 with
    | (.err err, w2) =>
      ⟨(none, some err),
        [.quicAccept x.quicServer (.ok conn), .acceptStream conn (.err err)], w2⟩
    | (.ok stream, w2) =>
      ⟨(some { conn := x.conn, qconn := conn, stream := stream }, none),
        [.quicAccept x.quicServer (.ok conn), .acceptStream conn (.ok stream)], w2⟩

/-! ## `listen.go`: `ListenAndServe`

The listener and the handler are caller-supplied interface values, so a call of
theirs may return, panic, or never come back; what they do may depend on the world
and change it (a handler may cancel the context). The context is taken to be a
non-nil `context.Context`, so the cancellation check itself does not panic. Ways of
leaving a goroutine that `recover()` does not see (`runtime.Goexit`, `os.Exit`, fatal
runtime errors) are outside the model. The loop has no bound of its own; the model
runs it for at most `fuel` iterations and says so when the fuel ran out. -/

/-- The value carried by a Go panic, as `recover()` hands it back: `nilValue` is the
nil interface value, for which the `e != nil` test of the deferred function fails. -/
inductive PanicValue where
  | nilValue
  | val (n : Nat)
  deriving DecidableEq, Repr

/-- How a call of `listener.Accept()` ends: it returns the Go pair `(conn, err)`, it
panics, or it blocks for ever. -/
inductive AcceptOutcome (κ : Type) where
  | ret (conn : Option κ) (err : Option GoError)
  | panicked (v : PanicValue)
  | blocked
  deriving DecidableEq, Repr

/-- How a call of `handler.Handle(ctx, conn)` ends. -/
inductive HandleOutcome where
  | ret
  | panicked (v : PanicValue)
  | blocked
  deriving DecidableEq, Repr

/-- What `ListenAndServe` does that an observer can see, one event per step. -/
inductive Event (κ : Type) where
  | ctxDone (fired : Bool)
  | accept (o : AcceptOutcome κ)
  | handle (conn : Option κ) (o : HandleOutcome)
  | printStack
  deriving DecidableEq, Repr

/-- How a function body ends. `outOfFuel` belongs to the model only: the iteration
budget was used up while the loop was still running. -/
inductive Completion where
  | returned
  | panicking (v : PanicValue)
  | blocked
  | outOfFuel
  deriving DecidableEq, Repr

/-- The three arguments of `ListenAndServe`: the context (`done w` tells whether
`ctx.Done()` is ready in world `w`), the listener and the handler. -/
structure Serve (σ : Type) (κ : Type) where
  done : σ → Bool
  accept : σ → AcceptOutcome κ × σ
  handle : Option κ → σ → HandleOutcome × σ

/-- A run: how it ended, what happened (oldest first), and the world afterwards. -/
structure Run (σ : Type) (κ : Type) where
  completion : Completion
  trace : List (Event κ)
  world : σ
  deriving DecidableEq

/-- The run `r` preceded by the events `es`. -/
def Run.after {σ κ : Type} (es : List (Event κ)) (r : Run σ κ) : Run σ κ :=
  { r with trace := es ++ r.trace }

/-- The `for` loop of `ListenAndServe`, without the deferred function. -/
def serveLoop {σ κ : Type} (E : Serve σ κ) : Nat → σ → Run σ κ
  | 0, w => ⟨.outOfFuel, [], w⟩
  | fuel + 1, w =>
    if E.done w then
      ⟨.returned, [.ctxDone true], w⟩
    else
      match E.accept w with
      | (.panicked v, w1) => ⟨.panicking v, [.ctxDone false, .accept (.panicked v)], w1⟩
      | (.blocked, w1) => ⟨.blocked, [.ctxDone false, .accept .blocked], w1⟩
      | (.ret conn (some err), w1) =>
        (serveLoop E fuel w1).after [.ctxDone false, .accept (.ret conn (some err))]
      | (.ret conn none, w1) =>
        match E.handle conn w1 with
        | (.panicked v, w2) =>
          ⟨.panicking v,
            [.ctxDone false, .accept (.ret conn none), .handle conn (.panicked v)], w2⟩
        | (.blocked, w2) =>
          ⟨.blocked,
            [.ctxDone false, .accept (.ret conn none), .handle conn .blocked], w2⟩
        | (.ret, w2) =>
          (serveLoop E fuel w2).after
            [.ctxDone false, .accept (.ret conn none), .handle conn .ret]

/-- The deferred function of `ListenAndServe`: `recover()` stops a panic, and the
stack is printed when the recovered value is not nil. It also runs, and does
nothing, when the loop returned. -/
def recoverDeferred {σ κ : Type} (r : Run σ κ) : Run σ κ :=
  match r.completion with
  | .panicking e =>
    ⟨.returned, r.trace ++ (if e ≠ .nilValue then [.printStack] else []), r.world⟩
  | _ => r

/-- The function `ListenAndServe` of `listen.go`, run for at most `fuel`
iterations of its loop. -/
def ListenAndServe {σ κ : Type} (E : Serve σ κ) (fuel : Nat) (w : σ) : Run σ κ :=
  recoverDeferred (serveLoop E fuel w)

/-- Whether an event is a call of `listener.Accept`. -/
def Event.isAccept {κ : Type} : Event κ → Bool
  | .accept _ => true
  | _ => false

/-- Whether an event is a call of `handler.Handle`. -/
def Event.isHandle {κ : Type} : Event κ → Bool
  | .handle _ _ => true
  | _ => false

/-- The panic value of an event that is a call that panicked. -/
def Event.panicValue {κ : Type} : Event κ → Option PanicValue
  | .accept (.panicked v) => some v
  | .handle _ (.panicked v) => some v
  | _ => none

/-- Whether an event is a call that panicked. -/
def Event.isPanic {κ : Type} (e : Event κ) : Bool :=
  e.panicValue.isSome

/-- The number of calls of `listener.Accept` in a trace. -/
def acceptCalls {κ : Type} (t : List (Event κ)) : Nat :=
  (t.filter Event.isAccept).length

/-- The arguments of the calls of `handler.Handle` in a trace, in order. -/
def handled {κ : Type} : List (Event κ) → List (Option κ)
  | [] => []
  | .handle conn _ :: rest => conn :: handled rest
  | _ :: rest => handled rest

/-- The events of the iterations that accept the handles `cs` one after the other
and handle each: cancellation check, `Accept`, `Handle`. -/
def servedTrace {κ : Type} : List κ → List (Event κ)
  | [] => []
  | c :: cs =>
    [.ctxDone false, .accept (.ret (some c) none), .handle (some c) .ret] ++ servedTrace cs

/-- From world `w`, the next `cs.length` iterations find the context not cancelled,
`Accept` returns the handles `cs` in this order with a nil error, `Handle` returns
on each, and the world is `w1` afterwards. -/
def AcceptsInOrder {σ κ : Type} (E : Serve σ κ) : σ → List κ → σ → Prop
  | w, [], w1 => w1 = w
  | w, c :: cs, w1 =>
    E.done w = false ∧
    (E.accept w).1 = .ret (some c) none ∧
    (E.handle (some c) (E.accept w).2).1 = .ret ∧
    AcceptsInOrder E (E.handle (some c) (E.accept w).2).2 cs w1

/-- Whether the next iterations accept and handle `cs` can be computed. -/
instance AcceptsInOrder.decidable {σ κ : Type} [DecidableEq σ] [DecidableEq κ]
    (E : Serve σ κ) : (w : σ) → (cs : List κ) → (w1 : σ) →
      Decidable (AcceptsInOrder E w cs w1)
  | w, [], w1 => inferInstanceAs (Decidable (w1 = w))
  | w, c :: cs, w1 =>
    have := AcceptsInOrder.decidable E (E.handle (some c) (E.accept w).2).2 cs w1
    inferInstanceAs (Decidable (_ ∧ _ ∧ _ ∧ _))

/-! ## Concrete worlds

Scripted collaborators, used to run the definitions above on explicit inputs. The
world state is the number of collaborator calls made so far. -/

/-- A world in which call number `k` (counting from 0) fails with the error
`base k` and every other call succeeds, returning a fresh identity. -/
def scriptWorld (k : Nat) : World Nat where
  resolveUDPAddr := fun _ _ w =>
    (if w = k then .err (.base w) else .ok ⟨[127, 0, 0, 1], 4242⟩, w + 1)
  listenUDP := fun _ _ w => (if w = k then .err (.base w) else .ok ⟨w⟩, w + 1)
  dialAddr := fun _ _ _ w => (if w = k then .err (.base w) else .ok ⟨w⟩, w + 1)
  openStreamSync := fun _ w => (if w = k then .err (.base w) else .ok ⟨w⟩, w + 1)
  quicListen := fun _ _ _ w => (if w = k then .err (.base w) else .ok ⟨w⟩, w + 1)
  quicAccept := fun _ w => (if w = k then .err (.base w) else .ok ⟨w⟩, w + 1)
  acceptStream := fun _ w => (if w = k then .err (.base w) else .ok ⟨w⟩, w + 1)

/-- A listener and a handler over handles that are numbers; the world state is the
number of `Accept` calls made so far. The context is cancelled from world `cancelAt`
on; `Accept` call number `errAt` returns an error and every other returns the call
number as the handle; `Handle` panics on the handle `panicAt` and returns on every
other. -/
def scriptServe (cancelAt errAt panicAt : Nat) : Serve Nat Nat where
  done := fun w => decide (cancelAt ≤ w)
  accept := fun w =>
    (if w = errAt then .ret none (some (.base w)) else .ret (some w) none, w + 1)
  handle := fun conn w =>
    (if conn = some panicAt then .panicked (.val panicAt) else .ret, w)

/-! ## `Dial` -/

/-- C6. `Dial` attempts bind, session establishment and stream open in this order,
stops at the first step that fails and returns `(nil, err)` with exactly that step's
error; it returns a handle only when all three steps succeeded, and the handle is made
of exactly the socket, the session and the stream these steps returned. The recorded
calls show which steps were attempted. -/
theorem Dial_sequencing {σ : Type} (W : World σ) (addr : String) (tlsConfig : TLSConfig)
    (quicConfig : Config) (w : σ) :
    (∀ e w1, W.listenUDP "udp" ⟨IPv4zero, 0⟩ w = (.err e, w1) →
      Dial W addr tlsConfig quicConfig w =
        ⟨(none, some e), [.listenUDP "udp" ⟨IPv4zero, 0⟩ (.err e)], w1⟩) ∧
    (∀ u w1 e w2, W.listenUDP "udp" ⟨IPv4zero, 0⟩ w = (.ok u, w1) →
      W.dialAddr addr tlsConfig quicConfig w1 = (.err e, w2) →
      Dial W addr tlsConfig quicConfig w =
        ⟨(none, some e),
          [.listenUDP "udp" ⟨IPv4zero, 0⟩ (.ok u),
           .dialAddr addr tlsConfig quicConfig (.err e)], w2⟩) ∧
    (∀ u w1 s w2 e w3, W.listenUDP "udp" ⟨IPv4zero, 0⟩ w = (.ok u, w1) →
      W.dialAddr addr tlsConfig quicConfig w1 = (.ok s, w2) →
      W.openStreamSync s w2 = (.err e, w3) →
      Dial W addr tlsConfig quicConfig w =
        ⟨(none, some e),
          [.listenUDP "udp" ⟨IPv4zero, 0⟩ (.ok u),
           .dialAddr addr tlsConfig quicConfig (.ok s),
           .openStreamSync s (.err e)], w3⟩) ∧
    (∀ u w1 s w2 st w3, W.listenUDP "udp" ⟨IPv4zero, 0⟩ w = (.ok u, w1) →
      W.dialAddr addr tlsConfig quicConfig w1 = (.ok s, w2) →
      W.openStreamSync s w2 = (.ok st, w3) →
      Dial W addr tlsConfig quicConfig w =
        ⟨(some { conn := u, qconn := s, stream := st }, none),
          [.listenUDP "udp" ⟨IPv4zero, 0⟩ (.ok u),
           .dialAddr addr tlsConfig quicConfig (.ok s),
           .openStreamSync s (.ok st)], w3⟩) ∧
    (∀ h, (Dial W addr tlsConfig quicConfig w).result.1 = some h →
      ∃ u w1 s w2 st w3, W.listenUDP "udp" ⟨IPv4zero, 0⟩ w = (.ok u, w1) ∧
        W.dialAddr addr tlsConfig quicConfig w1 = (.ok s, w2) ∧
        W.openStreamSync s w2 = (.ok st, w3) ∧
        h = { conn := u, qconn := s, stream := st } ∧
        (Dial W addr tlsConfig quicConfig w).result.2 = none) := by
  refine ⟨?_, ?_, ?_, ?_, ?_⟩
  · intro e w1 h1
    simp only [Dial, h1]
  · intro u w1 e w2 h1 h2
    simp only [Dial, h1, h2]
  · intro u w1 s w2 e w3 h1 h2 h3
    simp only [Dial, h1, h2, h3]
  · intro u w1 s w2 st w3 h1 h2 h3
    simp only [Dial, h1, h2, h3]
  · intro h hres
    unfold Dial at hres
    rcases h1 : W.listenUDP "udp" ⟨IPv4zero, 0⟩ w with ⟨r1, w1⟩
    rw [h1] at hres
    cases r1 with
    | err e => simp at hres
    | ok u =>
      rcases h2 : W.dialAddr addr tlsConfig quicConfig w1 with ⟨r2, w2⟩
      simp only [h2] at hres
      cases r2 with
      | err e => simp at hres
      | ok s =>
        rcases h3 : W.openStreamSync s w2 with ⟨r3, w3⟩
        simp only [h3] at hres
        cases r3 with
        | err e => simp at hres
        | ok st =>
          simp only [Option.some.injEq] at hres
          exact ⟨u, w1, s, w2, st, w3, rfl, h2, h3, hres.symm, by simp only [Dial, h1, h2, h3]⟩

/-- The four cases of `Dial_sequencing`, each in a scripted world: the bind fails,
the session fails, the stream open fails, nothing fails. -/
theorem Dial_sequencing_witness :
    ((scriptWorld 0).listenUDP "udp" ⟨IPv4zero, 0⟩ 0 = (.err (.base 0), 1) ∧
      Dial (scriptWorld 0) "127.0.0.1:9" ⟨0⟩ ⟨0⟩ 0 =
        ⟨(none, some (.base 0)), [.listenUDP "udp" ⟨IPv4zero, 0⟩ (.err (.base 0))], 1⟩) ∧
    (((scriptWorld 1).listenUDP "udp" ⟨IPv4zero, 0⟩ 0 = (.ok ⟨0⟩, 1) ∧
        (scriptWorld 1).dialAddr "127.0.0.1:9" ⟨0⟩ ⟨0⟩ 1 = (.err (.base 1), 2)) ∧
      Dial (scriptWorld 1) "127.0.0.1:9" ⟨0⟩ ⟨0⟩ 0 =
        ⟨(none, some (.base 1)),
          [.listenUDP "udp" ⟨IPv4zero, 0⟩ (.ok ⟨0⟩),
           .dialAddr "127.0.0.1:9" ⟨0⟩ ⟨0⟩ (.err (.base 1))], 2⟩) ∧
    (((scriptWorld 2).listenUDP "udp" ⟨IPv4zero, 0⟩ 0 = (.ok ⟨0⟩, 1) ∧
        (scriptWorld 2).dialAddr "127.0.0.1:9" ⟨0⟩ ⟨0⟩ 1 = (.ok ⟨1⟩, 2) ∧
        (scriptWorld 2).openStreamSync ⟨1⟩ 2 = (.err (.base 2), 3)) ∧
      Dial (scriptWorld 2) "127.0.0.1:9" ⟨0⟩ ⟨0⟩ 0 =
        ⟨(none, some (.base 2)),
          [.listenUDP "udp" ⟨IPv4zero, 0⟩ (.ok ⟨0⟩),
           .dialAddr "127.0.0.1:9" ⟨0⟩ ⟨0⟩ (.ok ⟨1⟩),
           .openStreamSync ⟨1⟩ (.err (.base 2))], 3⟩) ∧
    (((scriptWorld 9).listenUDP "udp" ⟨IPv4zero, 0⟩ 0 = (.ok ⟨0⟩, 1) ∧
        (scriptWorld 9).dialAddr "127.0.0.1:9" ⟨0⟩ ⟨0⟩ 1 = (.ok ⟨1⟩, 2) ∧
        (scriptWorld 9).openStreamSync ⟨1⟩ 2 = (.ok ⟨2⟩, 3)) ∧
      Dial (scriptWorld 9) "127.0.0.1:9" ⟨0⟩ ⟨0⟩ 0 =
        ⟨(some { conn := ⟨0⟩, qconn := ⟨1⟩, stream := ⟨2⟩ }, none),
          [.listenUDP "udp" ⟨IPv4zero, 0⟩ (.ok ⟨0⟩),
           .dialAddr "127.0.0.1:9" ⟨0⟩ ⟨0⟩ (.ok ⟨1⟩),
           .openStreamSync ⟨1⟩ (.ok ⟨2⟩)], 3⟩) ∧
    ((Dial (scriptWorld 9) "127.0.0.1:9" ⟨0⟩ ⟨0⟩ 0).result.1 =
        some { conn := ⟨0⟩, qconn := ⟨1⟩, stream := ⟨2⟩ } ∧
      ∃ u w1 s w2 st w3, (scriptWorld 9).listenUDP "udp" ⟨IPv4zero, 0⟩ 0 = (.ok u, w1) ∧
        (scriptWorld 9).dialAddr "127.0.0.1:9" ⟨0⟩ ⟨0⟩ w1 = (.ok s, w2) ∧
        (scriptWorld 9).openStreamSync s w2 = (.ok st, w3) ∧
        ({ conn := ⟨0⟩, qconn := ⟨1⟩, stream := ⟨2⟩ } : Quic) =
          { conn := u, qconn := s, stream := st } ∧
        (Dial (scriptWorld 9) "127.0.0.1:9" ⟨0⟩ ⟨0⟩ 0).result.2 = none) :=
  ⟨⟨by decide,
      (Dial_sequencing (scriptWorld 0) "127.0.0.1:9" ⟨0⟩ ⟨0⟩ 0).1 _ _ (by decide)⟩,
    ⟨⟨by decide, by decide⟩,
      (Dial_sequencing (scriptWorld 1) "127.0.0.1:9" ⟨0⟩ ⟨0⟩ 0).2.1 ⟨0⟩ 1 (.base 1) 2
        (by decide) (by decide)⟩,
    ⟨⟨by decide, by decide, by decide⟩,
      (Dial_sequencing (scriptWorld 2) "127.0.0.1:9" ⟨0⟩ ⟨0⟩ 0).2.2.1 ⟨0⟩ 1 ⟨1⟩ 2 (.base 2) 3
        (by decide) (by decide) (by decide)⟩,
    ⟨⟨by decide, by decide, by decide⟩,
      (Dial_sequencing (scriptWorld 9) "127.0.0.1:9" ⟨0⟩ ⟨0⟩ 0).2.2.2.1 ⟨0⟩ 1 ⟨1⟩ 2 ⟨2⟩ 3
        (by decide) (by decide) (by decide)⟩,
    ⟨by decide,
      (Dial_sequencing (scriptWorld 9) "127.0.0.1:9" ⟨0⟩ ⟨0⟩ 0).2.2.2.2 _ (by decide)⟩⟩

/-- Whatever the collaborators do, `Dial` makes no `Close` call on any socket. -/
theorem Dial_never_closes {σ : Type} (W : World σ) (addr : String) (tlsConfig : TLSConfig)
    (quicConfig : Config) (w : σ) (c : UDPConn) :
    Call.udpClose c ∉ (Dial W addr tlsConfig quicConfig w).calls := by
  rcases h1 : W.listenUDP "udp" ⟨IPv4zero, 0⟩ w with ⟨r1, w1⟩
  cases r1 with
  | err e => simp [Dial, h1]
  | ok u =>
    rcases h2 : W.dialAddr addr tlsConfig quicConfig w1 with ⟨r2, w2⟩
    cases r2 with
    | err e => simp [Dial, h1, h2]
    | ok s =>
      rcases h3 : W.openStreamSync s w2 with ⟨r3, w3⟩
      cases r3 <;> simp [Dial, h1, h2, h3]

/-- C7. `Dial` run where the bind succeeds and the session cannot be established, and
where the bind and the session succeed and the stream cannot be opened: it returns
`(nil, err)`, it has made no `Close` call, and the socket it bound is still open. -/
theorem Dial_failure_leaves_socket_open :
    (Dial (scriptWorld 1) "127.0.0.1:9" ⟨0⟩ ⟨0⟩ 0).result = (none, some (.base 1)) ∧
    (Dial (scriptWorld 1) "127.0.0.1:9" ⟨0⟩ ⟨0⟩ 0).calls =
      [.listenUDP "udp" ⟨IPv4zero, 0⟩ (.ok ⟨0⟩),
       .dialAddr "127.0.0.1:9" ⟨0⟩ ⟨0⟩ (.err (.base 1))] ∧
    openSockets (Dial (scriptWorld 1) "127.0.0.1:9" ⟨0⟩ ⟨0⟩ 0).calls = [⟨0⟩] ∧
    (Dial (scriptWorld 2) "127.0.0.1:9" ⟨0⟩ ⟨0⟩ 0).result = (none, some (.base 2)) ∧
    (Dial (scriptWorld 2) "127.0.0.1:9" ⟨0⟩ ⟨0⟩ 0).calls =
      [.listenUDP "udp" ⟨IPv4zero, 0⟩ (.ok ⟨0⟩),
       .dialAddr "127.0.0.1:9" ⟨0⟩ ⟨0⟩ (.ok ⟨1⟩),
       .openStreamSync ⟨1⟩ (.err (.base 2))] ∧
    openSockets (Dial (scriptWorld 2) "127.0.0.1:9" ⟨0⟩ ⟨0⟩ 0).calls = [⟨0⟩] := by
  decide

/-! ## `Listen` -/

/-- C10, as stated, fails where the address does not resolve: `Listen` then returns
a new `*net.OpError` around the resolution error, not that error itself. -/
theorem Listen_resolve_error_is_wrapped :
    (scriptWorld 0).resolveUDPAddr "udp" "nowhere" 0 = (.err (.base 0), 1) ∧
    (Listen (scriptWorld 0) "udp" "nowhere" ⟨0⟩ ⟨0⟩ 0).result =
      (none, some (.opError "listen" "udp" none none (.base 0))) ∧
    (Listen (scriptWorld 0) "udp" "nowhere" ⟨0⟩ ⟨0⟩ 0).result ≠ (none, some (.base 0)) := by
  decide

/-- C10, amended. `Listen` stops at the first step that fails and returns no
listener: when the address does not resolve, the error is a `*net.OpError` with
`Op = "listen"`, `Net = network`, nil `Source` and `Addr`, wrapping the resolution
error; when the bind or the construction of the session acceptor fails, the error is
exactly the one that step produced. The recorded calls show that no later step was
attempted. -/
theorem Listen_error_propagation {σ : Type} (W : World σ) (network laddr : String)
    (tlsConfig : TLSConfig) (quicConfig : Config) (w : σ) :
    (∀ e w1, W.resolveUDPAddr network laddr w = (.err e, w1) →
      Listen W network laddr tlsConfig quicConfig w =
        ⟨(none, some (.opError "listen" network none none e)),
          [.resolveUDPAddr network laddr (.err e)], w1⟩) ∧
    (∀ a w1 e w2, W.resolveUDPAddr network laddr w = (.ok a, w1) →
      W.listenUDP network a w1 = (.err e, w2) →
      Listen W network laddr tlsConfig quicConfig w =
        ⟨(none, some e),
          [.resolveUDPAddr network laddr (.ok a), .listenUDP network a (.err e)], w2⟩) ∧
    (∀ a w1 c w2 e w3, W.resolveUDPAddr network laddr w = (.ok a, w1) →
      W.listenUDP network a w1 = (.ok c, w2) →
      W.quicListen c tlsConfig quicConfig w2 = (.err e, w3) →
      Listen W network laddr tlsConfig quicConfig w =
        ⟨(none, some e),
          [.resolveUDPAddr network laddr (.ok a), .listenUDP network a (.ok c),
           .quicListen c tlsConfig quicConfig (.err e)], w3⟩) := by
  refine ⟨?_, ?_, ?_⟩
  · intro e w1 h1
    simp only [Listen, h1]
  · intro a w1 e w2 h1 h2
    simp only [Listen, h1, h2]
  · intro a w1 c w2 e w3 h1 h2 h3
    simp only [Listen, h1, h2, h3]

/-- The three failures of `Listen_error_propagation`, each in a scripted world. -/
theorem Listen_error_propagation_witness :
    ((scriptWorld 0).resolveUDPAddr "udp" "nowhere" 0 = (.err (.base 0), 1) ∧
      Listen (scriptWorld 0) "udp" "nowhere" ⟨0⟩ ⟨0⟩ 0 =
        ⟨(none, some (.opError "listen" "udp" none none (.base 0))),
          [.resolveUDPAddr "udp" "nowhere" (.err (.base 0))], 1⟩) ∧
    (((scriptWorld 1).resolveUDPAddr "udp" "127.0.0.1:4242" 0 =
          (.ok ⟨[127, 0, 0, 1], 4242⟩, 1) ∧
        (scriptWorld 1).listenUDP "udp" ⟨[127, 0, 0, 1], 4242⟩ 1 = (.err (.base 1), 2)) ∧
      Listen (scriptWorld 1) "udp" "127.0.0.1:4242" ⟨0⟩ ⟨0⟩ 0 =
        ⟨(none, some (.base 1)),
          [.resolveUDPAddr "udp" "127.0.0.1:4242" (.ok ⟨[127, 0, 0, 1], 4242⟩),
           .listenUDP "udp" ⟨[127, 0, 0, 1], 4242⟩ (.err (.base 1))], 2⟩) ∧
    (((scriptWorld 2).resolveUDPAddr "udp" "127.0.0.1:4242" 0 =
          (.ok ⟨[127, 0, 0, 1], 4242⟩, 1) ∧
        (scriptWorld 2).listenUDP "udp" ⟨[127, 0, 0, 1], 4242⟩ 1 = (.ok ⟨1⟩, 2) ∧
        (scriptWorld 2).quicListen ⟨1⟩ ⟨0⟩ ⟨0⟩ 2 = (.err (.base 2), 3)) ∧
      Listen (scriptWorld 2) "udp" "127.0.0.1:4242" ⟨0⟩ ⟨0⟩ 0 =
        ⟨(none, some (.base 2)),
          [.resolveUDPAddr "udp" "127.0.0.1:4242" (.ok ⟨[127, 0, 0, 1], 4242⟩),
           .listenUDP "udp" ⟨[127, 0, 0, 1], 4242⟩ (.ok ⟨1⟩),
           .quicListen ⟨1⟩ ⟨0⟩ ⟨0⟩ (.err (.base 2))], 3⟩) :=
  ⟨⟨by decide,
      (Listen_error_propagation (scriptWorld 0) "udp" "nowhere" ⟨0⟩ ⟨0⟩ 0).1 (.base 0) 1
        (by decide)⟩,
    ⟨⟨by decide, by decide⟩,
      (Listen_error_propagation (scriptWorld 1) "udp" "127.0.0.1:4242" ⟨0⟩ ⟨0⟩ 0).2.1
        ⟨[127, 0, 0, 1], 4242⟩ 1 (.base 1) 2 (by decide) (by decide)⟩,
    ⟨⟨by decide, by decide, by decide⟩,
      (Listen_error_propagation (scriptWorld 2) "udp" "127.0.0.1:4242" ⟨0⟩ ⟨0⟩ 0).2.2
        ⟨[127, 0, 0, 1], 4242⟩ 1 ⟨1⟩ 2 (.base 2) 3 (by decide) (by decide) (by decide)⟩⟩

/-! ## `listener.Accept` -/

/-- C8. `listener.Accept` is two-phase: when the session accept fails, `AcceptStream`
is not called and that error is returned with no handle; when `AcceptStream` on the
accepted session fails, its error is returned with no handle; when both succeed, the
handle returned carries exactly that session and that stream; and a handle is
returned only in this last case. -/
theorem Accept_two_phase {σ : Type} (W : World σ) (x : listener) (w : σ) :
    (∀ e w1, W.quicAccept x.quicServer w = (.err e, w1) →
      x.Accept W w = ⟨(none, some e), [.quicAccept x.quicServer (.err e)], w1⟩) ∧
    (∀ s w1 e w2, W.quicAccept x.quicServer w = (.ok s, w1) →
      W.acceptStream s w1 = (.err e, w2) →
      x.Accept W w =
        ⟨(none, some e),
          [.quicAccept x.quicServer (.ok s), .acceptStream s (.err e)], w2⟩) ∧
    (∀ s w1 st w2, W.quicAccept x.quicServer w = (.ok s, w1) →
      W.acceptStream s w1 = (.ok st, w2) →
      x.Accept W w =
        ⟨(some { conn := x.conn, qconn := s, stream := st }, none),
          [.quicAccept x.quicServer (.ok s), .acceptStream s (.ok st)], w2⟩) ∧
    (∀ h, (x.Accept W w).result.1 = some h →
      ∃ s w1 st w2, W.quicAccept x.quicServer w = (.ok s, w1) ∧
        W.acceptStream s w1 = (.ok st, w2) ∧
        h = { conn := x.conn, qconn := s, stream := st } ∧
        (x.Accept W w).result.2 = none) := by
  refine ⟨?_, ?_, ?_, ?_⟩
  · intro e w1 h1
    simp only [listener.Accept, h1]
  · intro s w1 e w2 h1 h2
    simp only [listener.Accept, h1, h2]
  · intro s w1 st w2 h1 h2
    simp only [listener.Accept, h1, h2]
  · intro h hres
    unfold listener.Accept at hres
    rcases h1 : W.quicAccept x.quicServer w with ⟨r1, w1⟩
    rw [h1] at hres
    cases r1 with
    | err e => simp at hres
    | ok s =>
      rcases h2 : W.acceptStream s w1 with ⟨r2, w2⟩
      simp only [h2] at hres
      cases r2 with
      | err e => simp at hres
      | ok st =>
        simp only [Option.some.injEq] at hres
        exact ⟨s, w1, st, w2, rfl, h2, hres.symm, by simp only [listener.Accept, h1, h2]⟩

/-- The cases of `Accept_two_phase`, each in a scripted world, for the listener that
owns socket 7 and session acceptor 8. -/
theorem Accept_two_phase_witness :
    ((scriptWorld 0).quicAccept ⟨8⟩ 0 = (.err (.base 0), 1) ∧
      listener.Accept (scriptWorld 0) ⟨⟨7⟩, ⟨8⟩⟩ 0 =
        ⟨(none, some (.base 0)), [.quicAccept ⟨8⟩ (.err (.base 0))], 1⟩) ∧
    (((scriptWorld 1).quicAccept ⟨8⟩ 0 = (.ok ⟨0⟩, 1) ∧
        (scriptWorld 1).acceptStream ⟨0⟩ 1 = (.err (.base 1), 2)) ∧
      listener.Accept (scriptWorld 1) ⟨⟨7⟩, ⟨8⟩⟩ 0 =
        ⟨(none, some (.base 1)),
          [.quicAccept ⟨8⟩ (.ok ⟨0⟩), .acceptStream ⟨0⟩ (.err (.base 1))], 2⟩) ∧
    (((scriptWorld 9).quicAccept ⟨8⟩ 0 = (.ok ⟨0⟩, 1) ∧
        (scriptWorld 9).acceptStream ⟨0⟩ 1 = (.ok ⟨1⟩, 2)) ∧
      listener.Accept (scriptWorld 9) ⟨⟨7⟩, ⟨8⟩⟩ 0 =
        ⟨(some { conn := ⟨7⟩, qconn := ⟨0⟩, stream := ⟨1⟩ }, none),
          [.quicAccept ⟨8⟩ (.ok ⟨0⟩), .acceptStream ⟨0⟩ (.ok ⟨1⟩)], 2⟩) ∧
    ((listener.Accept (scriptWorld 9) ⟨⟨7⟩, ⟨8⟩⟩ 0).result.1 =
        some { conn := ⟨7⟩, qconn := ⟨0⟩, stream := ⟨1⟩ } ∧
      ∃ s w1 st w2, (scriptWorld 9).quicAccept ⟨8⟩ 0 = (.ok s, w1) ∧
        (scriptWorld 9).acceptStream s w1 = (.ok st, w2) ∧
        (⟨⟨7⟩, ⟨0⟩, ⟨1⟩⟩ : Quic) =
          { conn := (⟨⟨7⟩, ⟨8⟩⟩ : listener).conn, qconn := s, stream := st } ∧
        (listener.Accept (scriptWorld 9) ⟨⟨7⟩, ⟨8⟩⟩ 0).result.2 = none) :=
  ⟨⟨by decide, (Accept_two_phase (scriptWorld 0) ⟨⟨7⟩, ⟨8⟩⟩ 0).1 (.base 0) 1 (by decide)⟩,
    ⟨⟨by decide, by decide⟩,
      (Accept_two_phase (scriptWorld 1) ⟨⟨7⟩, ⟨8⟩⟩ 0).2.1 ⟨0⟩ 1 (.base 1) 2
        (by decide) (by decide)⟩,
    ⟨⟨by decide, by decide⟩,
      (Accept_two_phase (scriptWorld 9) ⟨⟨7⟩, ⟨8⟩⟩ 0).2.2.1 ⟨0⟩ 1 ⟨1⟩ 2
        (by decide) (by decide)⟩,
    ⟨by decide, (Accept_two_phase (scriptWorld 9) ⟨⟨7⟩, ⟨8⟩⟩ 0).2.2.2 _ (by decide)⟩⟩

/-- C9, as stated, fails: two `Accept` calls in a row on the listener that owns socket
7 return two different handles (different sessions, different streams) that carry the
same socket, and it is the listener's own. -/
theorem Accept_handles_share_listener_socket :
    (listener.Accept (scriptWorld 9) ⟨⟨7⟩, ⟨8⟩⟩ 0).result =
      (some { conn := ⟨7⟩, qconn := ⟨0⟩, stream := ⟨1⟩ }, none) ∧
    (listener.Accept (scriptWorld 9) ⟨⟨7⟩, ⟨8⟩⟩ 0).world = 2 ∧
    (listener.Accept (scriptWorld 9) ⟨⟨7⟩, ⟨8⟩⟩ 2).result =
      (some { conn := ⟨7⟩, qconn := ⟨2⟩, stream := ⟨3⟩ }, none) ∧
    ({ conn := ⟨7⟩, qconn := ⟨0⟩, stream := ⟨1⟩ } : Quic) ≠
      { conn := ⟨7⟩, qconn := ⟨2⟩, stream := ⟨3⟩ } ∧
    ({ conn := ⟨7⟩, qconn := ⟨0⟩, stream := ⟨1⟩ } : Quic).conn =
      ({ conn := ⟨7⟩, qconn := ⟨2⟩, stream := ⟨3⟩ } : Quic).conn ∧
    ({ conn := ⟨7⟩, qconn := ⟨0⟩, stream := ⟨1⟩ } : Quic).conn =
      (⟨⟨7⟩, ⟨8⟩⟩ : listener).conn := by
  decide

/-- C9, amended. Every handle a successful `Accept` on a listener returns carries
that listener's own socket, so any two handles accepted on one listener, in whatever
worlds, share a single socket with each other and with the listener. -/
theorem Accept_socket_is_listener_socket {σ : Type} (W : World σ) (x : listener)
    (w w1 : σ) (h1 h2 : Quic)
    (ha : (x.Accept W w).result.1 = some h1) (hb : (x.Accept W w1).result.1 = some h2) :
    h1.conn = x.conn ∧ h2.conn = x.conn ∧ h1.conn = h2.conn := by
  have key : ∀ (v : σ) (h : Quic), (x.Accept W v).result.1 = some h → h.conn = x.conn := by
    intro v h hres
    unfold listener.Accept at hres
    rcases e1 : W.quicAccept x.quicServer v with ⟨r1, v1⟩
    rw [e1] at hres
    cases r1 with
    | err e => simp at hres
    | ok s =>
      rcases e2 : W.acceptStream s v1 with ⟨r2, v2⟩
      simp only [e2] at hres
      cases r2 with
      | err e => simp at hres
      | ok st =>
        simp only [Option.some.injEq] at hres
        subst hres
        rfl
  exact ⟨key w h1 ha, key w1 h2 hb, (key w h1 ha).trans (key w1 h2 hb).symm⟩

/-- Two `Accept` calls in a row on the listener that owns socket 7, in a scripted
world: both handles carry socket 7. -/
theorem Accept_socket_is_listener_socket_witness :
    ((listener.Accept (scriptWorld 9) ⟨⟨7⟩, ⟨8⟩⟩ 0).result.1 = some ⟨⟨7⟩, ⟨0⟩, ⟨1⟩⟩ ∧
      (listener.Accept (scriptWorld 9) ⟨⟨7⟩, ⟨8⟩⟩ 2).result.1 = some ⟨⟨7⟩, ⟨2⟩, ⟨3⟩⟩) ∧
    ((⟨⟨7⟩, ⟨0⟩, ⟨1⟩⟩ : Quic).conn = (⟨⟨7⟩, ⟨8⟩⟩ : listener).conn ∧
      (⟨⟨7⟩, ⟨2⟩, ⟨3⟩⟩ : Quic).conn = (⟨⟨7⟩, ⟨8⟩⟩ : listener).conn ∧
      (⟨⟨7⟩, ⟨0⟩, ⟨1⟩⟩ : Quic).conn = (⟨⟨7⟩, ⟨2⟩, ⟨3⟩⟩ : Quic).conn) :=
  ⟨⟨by decide, by decide⟩,
    Accept_socket_is_listener_socket (scriptWorld 9) ⟨⟨7⟩, ⟨8⟩⟩ 0 2 _ _
      (by decide) (by decide)⟩

/-! ## `ListenAndServe`: one iteration at a time -/

theorem Run.after_completion {σ κ : Type} (es : List (Event κ)) (r : Run σ κ) :
    (r.after es).completion = r.completion := rfl

theorem Run.after_trace {σ κ : Type} (es : List (Event κ)) (r : Run σ κ) :
    (r.after es).trace = es ++ r.trace := rfl

theorem Run.after_world {σ κ : Type} (es : List (Event κ)) (r : Run σ κ) :
    (r.after es).world = r.world := rfl

theorem serveLoop_done {σ κ : Type} (E : Serve σ κ) (n : Nat) (w : σ)
    (hd : E.done w = true) :
    serveLoop E (n + 1) w = ⟨.returned, [.ctxDone true], w⟩ := by
  simp only [serveLoop, hd, if_true]

theorem serveLoop_accept_panicked {σ κ : Type} (E : Serve σ κ) (n : Nat) (w w1 : σ)
    (v : PanicValue) (hd : E.done w = false) (ha : E.accept w = (.panicked v, w1)) :
    serveLoop E (n + 1) w =
      ⟨.panicking v, [.ctxDone false, .accept (.panicked v)], w1⟩ := by
  simp [serveLoop, hd, ha]

theorem serveLoop_accept_blocked {σ κ : Type} (E : Serve σ κ) (n : Nat) (w w1 : σ)
    (hd : E.done w = false) (ha : E.accept w = (.blocked, w1)) :
    serveLoop E (n + 1) w = ⟨.blocked, [.ctxDone false, .accept .blocked], w1⟩ := by
  simp [serveLoop, hd, ha]

theorem serveLoop_accept_err {σ κ : Type} (E : Serve σ κ) (n : Nat) (w w1 : σ)
    (conn : Option κ) (err : GoError) (hd : E.done w = false)
    (ha : E.accept w = (.ret conn (some err), w1)) :
    serveLoop E (n + 1) w =
      (serveLoop E n w1).after [.ctxDone false, .accept (.ret conn (some err))] := by
  simp [serveLoop, hd, ha]

theorem serveLoop_handle_panicked {σ κ : Type} (E : Serve σ κ) (n : Nat) (w w1 w2 : σ)
    (conn : Option κ) (v : PanicValue) (hd : E.done w = false)
    (ha : E.accept w = (.ret conn none, w1)) (hh : E.handle conn w1 = (.panicked v, w2)) :
    serveLoop E (n + 1) w =
      ⟨.panicking v,
        [.ctxDone false, .accept (.ret conn none), .handle conn (.panicked v)], w2⟩ := by
  simp [serveLoop, hd, ha, hh]

theorem serveLoop_handle_blocked {σ κ : Type} (E : Serve σ κ) (n : Nat) (w w1 w2 : σ)
    (conn : Option κ) (hd : E.done w = false)
    (ha : E.accept w = (.ret conn none, w1)) (hh : E.handle conn w1 = (.blocked, w2)) :
    serveLoop E (n + 1) w =
      ⟨.blocked, [.ctxDone false, .accept (.ret conn none), .handle conn .blocked], w2⟩ := by
  simp [serveLoop, hd, ha, hh]

theorem serveLoop_handle_ret {σ κ : Type} (E : Serve σ κ) (n : Nat) (w w1 w2 : σ)
    (conn : Option κ) (hd : E.done w = false)
    (ha : E.accept w = (.ret conn none, w1)) (hh : E.handle conn w1 = (.ret, w2)) :
    serveLoop E (n + 1) w =
      (serveLoop E n w2).after
        [.ctxDone false, .accept (.ret conn none), .handle conn .ret] := by
  simp [serveLoop, hd, ha, hh]

theorem recoverDeferred_after {σ κ : Type} (es : List (Event κ)) (r : Run σ κ) :
    recoverDeferred (r.after es) = (recoverDeferred r).after es := by
  rcases r with ⟨c, t, w⟩
  cases c <;> simp [recoverDeferred, Run.after]

/-- A loop that returned did so at a cancellation check that found the context
cancelled. -/
theorem serveLoop_returned {σ κ : Type} (E : Serve σ κ) :
    ∀ (fuel : Nat) (w : σ), (serveLoop E fuel w).completion = .returned →
      (∃ t0, (serveLoop E fuel w).trace = t0 ++ [.ctxDone true]) ∧
      E.done (serveLoop E fuel w).world = true := by
  intro fuel
  induction fuel with
  | zero => intro w h; simp [serveLoop] at h
  | succ n ih =>
    intro w
    by_cases hd : E.done w = true
    · rw [serveLoop_done E n w hd]
      intro _
      exact ⟨⟨[], rfl⟩, hd⟩
    · have hd1 : E.done w = false := by simpa using hd
      rcases ha : E.accept w with ⟨o, w1⟩
      cases o with
      | panicked v => rw [serveLoop_accept_panicked E n w w1 v hd1 ha]; intro h; simp at h
      | blocked => rw [serveLoop_accept_blocked E n w w1 hd1 ha]; intro h; simp at h
      | ret conn err =>
        cases err with
        | some err =>
          rw [serveLoop_accept_err E n w w1 conn err hd1 ha]
          intro h
          obtain ⟨⟨t0, ht⟩, hw⟩ := ih w1 h
          exact ⟨⟨_ ++ t0, by rw [Run.after_trace, ht, List.append_assoc]⟩, hw⟩
        | none =>
          rcases hh : E.handle conn w1 with ⟨ho, w2⟩
          cases ho with
          | panicked v =>
            rw [serveLoop_handle_panicked E n w w1 w2 conn v hd1 ha hh]; intro h; simp at h
          | blocked =>
            rw [serveLoop_handle_blocked E n w w1 w2 conn hd1 ha hh]; intro h; simp at h
          | ret =>
            rw [serveLoop_handle_ret E n w w1 w2 conn hd1 ha hh]
            intro h
            obtain ⟨⟨t0, ht⟩, hw⟩ := ih w2 h
            exact ⟨⟨_ ++ t0, by rw [Run.after_trace, ht, List.append_assoc]⟩, hw⟩

/-- A loop that ended in a panic did so at its last event, the call that panicked,
and no earlier call had panicked. -/
theorem serveLoop_panicking {σ κ : Type} (E : Serve σ κ) :
    ∀ (fuel : Nat) (w : σ) (v : PanicValue),
      (serveLoop E fuel w).completion = .panicking v →
      ∃ t0 e, (serveLoop E fuel w).trace = t0 ++ [e] ∧ e.panicValue = some v ∧
        ∀ x ∈ t0, x.panicValue = none := by
  intro fuel
  induction fuel with
  | zero => intro w v h; simp [serveLoop] at h
  | succ n ih =>
    intro w v
    by_cases hd : E.done w = true
    · rw [serveLoop_done E n w hd]; intro h; simp at h
    · have hd1 : E.done w = false := by simpa using hd
      rcases ha : E.accept w with ⟨o, w1⟩
      cases o with
      | panicked v1 =>
        rw [serveLoop_accept_panicked E n w w1 v1 hd1 ha]
        intro h
        simp only [Completion.panicking.injEq] at h
        subst h
        exact ⟨[.ctxDone false], .accept (.panicked v1), rfl, rfl, by simp [Event.panicValue]⟩
      | blocked => rw [serveLoop_accept_blocked E n w w1 hd1 ha]; intro h; simp at h
      | ret conn err =>
        cases err with
        | some err =>
          rw [serveLoop_accept_err E n w w1 conn err hd1 ha]
          intro h
          obtain ⟨t0, e, ht, he, h0⟩ := ih w1 v h
          refine ⟨_ ++ t0, e, by rw [Run.after_trace, ht, List.append_assoc], he, ?_⟩
          intro x hx
          simp only [List.mem_append, List.mem_cons, List.mem_singleton,
            List.not_mem_nil, or_false] at hx
          rcases hx with (rfl | rfl) | hx
          · rfl
          · rfl
          · exact h0 x hx
        | none =>
          rcases hh : E.handle conn w1 with ⟨ho, w2⟩
          cases ho with
          | panicked v1 =>
            rw [serveLoop_handle_panicked E n w w1 w2 conn v1 hd1 ha hh]
            intro h
            simp only [Completion.panicking.injEq] at h
            subst h
            exact ⟨[.ctxDone false, .accept (.ret conn none)], .handle conn (.panicked v1),
              rfl, rfl, by simp [Event.panicValue]⟩
          | blocked =>
            rw [serveLoop_handle_blocked E n w w1 w2 conn hd1 ha hh]; intro h; simp at h
          | ret =>
            rw [serveLoop_handle_ret E n w w1 w2 conn hd1 ha hh]
            intro h
            obtain ⟨t0, e, ht, he, h0⟩ := ih w2 v h
            refine ⟨_ ++ t0, e, by rw [Run.after_trace, ht, List.append_assoc], he, ?_⟩
            intro x hx
            simp only [List.mem_append, List.mem_cons, List.mem_singleton,
              List.not_mem_nil, or_false] at hx
            rcases hx with (rfl | rfl | rfl) | hx
            · rfl
            · rfl
            · rfl
            · exact h0 x hx

/-- A loop that did not end in a panic saw no call panic. -/
theorem serveLoop_quiet {σ κ : Type} (E : Serve σ κ) :
    ∀ (fuel : Nat) (w : σ), (∀ v, (serveLoop E fuel w).completion ≠ .panicking v) →
      ∀ x ∈ (serveLoop E fuel w).trace, x.panicValue = none := by
  intro fuel
  induction fuel with
  | zero => intro w _ x hx; simp [serveLoop] at hx
  | succ n ih =>
    intro w
    by_cases hd : E.done w = true
    · rw [serveLoop_done E n w hd]
      intro _ x hx
      simp only [List.mem_singleton] at hx
      subst hx
      rfl
    · have hd1 : E.done w = false := by simpa using hd
      rcases ha : E.accept w with ⟨o, w1⟩
      cases o with
      | panicked v1 =>
        rw [serveLoop_accept_panicked E n w w1 v1 hd1 ha]
        intro h
        exact absurd rfl (h v1)
      | blocked =>
        rw [serveLoop_accept_blocked E n w w1 hd1 ha]
        intro _ x hx
        simp only [List.mem_cons, List.mem_singleton, List.not_mem_nil, or_false] at hx
        rcases hx with rfl | rfl <;> rfl
      | ret conn err =>
        cases err with
        | some err =>
          rw [serveLoop_accept_err E n w w1 conn err hd1 ha]
          intro h x hx
          rw [Run.after_trace] at hx
          simp only [List.mem_append, List.mem_cons, List.mem_singleton,
            List.not_mem_nil, or_false] at hx
          rcases hx with (rfl | rfl) | hx
          · rfl
          · rfl
          · exact ih w1 h x hx
        | none =>
          rcases hh : E.handle conn w1 with ⟨ho, w2⟩
          cases ho with
          | panicked v1 =>
            rw [serveLoop_handle_panicked E n w w1 w2 conn v1 hd1 ha hh]
            intro h
            exact absurd rfl (h v1)
          | blocked =>
            rw [serveLoop_handle_blocked E n w w1 w2 conn hd1 ha hh]
            intro _ x hx
            simp only [List.mem_cons, List.mem_singleton, List.not_mem_nil, or_false] at hx
            rcases hx with rfl | rfl | rfl <;> rfl
          | ret =>
            rw [serveLoop_handle_ret E n w w1 w2 conn hd1 ha hh]
            intro h x hx
            rw [Run.after_trace] at hx
            simp only [List.mem_append, List.mem_cons, List.mem_singleton,
              List.not_mem_nil, or_false] at hx
            rcases hx with (rfl | rfl | rfl) | hx
            · rfl
            · rfl
            · rfl
            · exact ih w2 h x hx

theorem recoverDeferred_of_panicking {σ κ : Type} (r : Run σ κ) (v : PanicValue)
    (h : r.completion = .panicking v) :
    recoverDeferred r =
      ⟨.returned, r.trace ++ (if v ≠ .nilValue then [.printStack] else []), r.world⟩ := by
  rcases r with ⟨c, t, w⟩
  simp only at h
  subst h
  rfl

theorem recoverDeferred_of_quiet {σ κ : Type} (r : Run σ κ)
    (h : ∀ v, r.completion ≠ .panicking v) : recoverDeferred r = r := by
  rcases r with ⟨c, t, w⟩
  cases c with
  | panicking v => exact absurd rfl (h v)
  | returned => rfl
  | blocked => rfl
  | outOfFuel => rfl

/-- The loop either ended in a panic or it did not. -/
theorem Completion.panicking_or_not (c : Completion) :
    (∃ v, c = .panicking v) ∨ ∀ v, c ≠ .panicking v := by
  cases c with
  | panicking v => exact Or.inl ⟨v, rfl⟩
  | returned => exact Or.inr (fun v h => by cases h)
  | blocked => exact Or.inr (fun v h => by cases h)
  | outOfFuel => exact Or.inr (fun v h => by cases h)

/-- The loop over iterations that accept and handle `cs` and then find the context
cancelled. -/
theorem serveLoop_served {σ κ : Type} (E : Serve σ κ) (w1 : σ) (fuel : Nat)
    (hdone : E.done w1 = true) :
    ∀ (cs : List κ) (w : σ), AcceptsInOrder E w cs w1 →
      serveLoop E (cs.length + 1 + fuel) w =
        ⟨.returned, servedTrace cs ++ [.ctxDone true], w1⟩ := by
  intro cs
  induction cs with
  | nil =>
    intro w h
    simp only [AcceptsInOrder] at h
    subst h
    have e : ([] : List κ).length + 1 + fuel = fuel + 1 := by simp; omega
    rw [e, serveLoop_done E fuel w1 hdone]
    rfl
  | cons c cs ih =>
    intro w h
    obtain ⟨hd, ha, hh, hrest⟩ := h
    have e : (c :: cs).length + 1 + fuel = (cs.length + 1 + fuel) + 1 := by
      simp only [List.length_cons]; omega
    have ha1 : E.accept w = (.ret (some c) none, (E.accept w).2) := Prod.ext ha rfl
    have hh1 : E.handle (some c) (E.accept w).2 =
        (.ret, (E.handle (some c) (E.accept w).2).2) := Prod.ext hh rfl
    rw [e, serveLoop_handle_ret E _ w _ _ (some c) hd ha1 hh1, ih _ hrest]
    rfl

theorem handled_servedTrace {κ : Type} (cs : List κ) :
    handled (servedTrace cs ++ [.ctxDone true]) = cs.map some := by
  induction cs with
  | nil => rfl
  | cons c cs ih => simp [servedTrace, handled, ih]

theorem acceptCalls_servedTrace {κ : Type} (cs : List κ) :
    acceptCalls (servedTrace cs ++ [.ctxDone true]) = cs.length := by
  induction cs with
  | nil => rfl
  | cons c cs ih =>
    simp only [acceptCalls, List.filter_append, List.length_append] at ih
    simp [servedTrace, acceptCalls, Event.isAccept, List.filter_cons, List.filter_append]
    simpa [Event.isAccept] using ih

/-! ## `ListenAndServe`: the claims -/

/-- C1. When the context is already cancelled as `ListenAndServe` is called, it
returns at its first cancellation check: `Accept` is called zero times and `Handle` is
called zero times. -/
theorem ListenAndServe_cancelled_before_start {σ κ : Type} (E : Serve σ κ) (fuel : Nat)
    (w : σ) (h : E.done w = true) :
    ListenAndServe E (fuel + 1) w = ⟨.returned, [.ctxDone true], w⟩ ∧
    acceptCalls (ListenAndServe E (fuel + 1) w).trace = 0 ∧
    (handled (ListenAndServe E (fuel + 1) w).trace).length = 0 := by
  have e : ListenAndServe E (fuel + 1) w = ⟨.returned, [.ctxDone true], w⟩ := by
    rw [ListenAndServe, serveLoop_done E fuel w h]
    rfl
  rw [e]
  exact ⟨rfl, rfl, rfl⟩

/-- A context cancelled from the start, with a listener and a handler that would
both have worked. -/
theorem ListenAndServe_cancelled_before_start_witness :
    (scriptServe 0 9 9).done 0 = true ∧
    (ListenAndServe (scriptServe 0 9 9) (3 + 1) 0 = ⟨.returned, [.ctxDone true], 0⟩ ∧
      acceptCalls (ListenAndServe (scriptServe 0 9 9) (3 + 1) 0).trace = 0 ∧
      (handled (ListenAndServe (scriptServe 0 9 9) (3 + 1) 0).trace).length = 0) :=
  ⟨by decide, ListenAndServe_cancelled_before_start (scriptServe 0 9 9) 3 0 (by decide)⟩

/-- C2. When `Accept` succeeds `cs.length` times in a row, returning the handles `cs`,
`Handle` returns on each and the next cancellation check finds the context cancelled,
`ListenAndServe` returns after exactly the events check, `Accept`, `Handle` for each
handle in turn: `Handle` is called exactly `cs.length` times, on the handles in the
order `Accept` returned them, each call over before the next `Accept` call. -/
theorem ListenAndServe_handles_in_order {σ κ : Type} (E : Serve σ κ) (w w1 : σ)
    (cs : List κ) (fuel : Nat) (hacc : AcceptsInOrder E w cs w1)
    (hdone : E.done w1 = true) :
    ListenAndServe E (cs.length + 1 + fuel) w =
      ⟨.returned, servedTrace cs ++ [.ctxDone true], w1⟩ ∧
    handled (ListenAndServe E (cs.length + 1 + fuel) w).trace = cs.map some ∧
    acceptCalls (ListenAndServe E (cs.length + 1 + fuel) w).trace = cs.length := by
  have e : ListenAndServe E (cs.length + 1 + fuel) w =
      ⟨.returned, servedTrace cs ++ [.ctxDone true], w1⟩ := by
    rw [ListenAndServe, serveLoop_served E w1 fuel hdone cs w hacc]
    rfl
  rw [e]
  exact ⟨rfl, handled_servedTrace cs, acceptCalls_servedTrace cs⟩

/-- Three handles accepted and handled, then the context is cancelled. -/
theorem ListenAndServe_handles_in_order_witness :
    (AcceptsInOrder (scriptServe 3 9 9) 0 [0, 1, 2] 3 ∧ (scriptServe 3 9 9).done 3 = true) ∧
    (ListenAndServe (scriptServe 3 9 9) ([0, 1, 2].length + 1 + 5) 0 =
        ⟨.returned,
          [.ctxDone false, .accept (.ret (some 0) none), .handle (some 0) .ret,
           .ctxDone false, .accept (.ret (some 1) none), .handle (some 1) .ret,
           .ctxDone false, .accept (.ret (some 2) none), .handle (some 2) .ret,
           .ctxDone true], 3⟩ ∧
      handled (ListenAndServe (scriptServe 3 9 9) ([0, 1, 2].length + 1 + 5) 0).trace =
        [some 0, some 1, some 2] ∧
      acceptCalls (ListenAndServe (scriptServe 3 9 9) ([0, 1, 2].length + 1 + 5) 0).trace =
        3) :=
  ⟨⟨by decide, by decide⟩,
    ListenAndServe_handles_in_order (scriptServe 3 9 9) 0 3 [0, 1, 2] 5
      (by decide) (by decide)⟩

/-- C3. An iteration in which `Accept` returns an error contributes the cancellation
check and the `Accept` call only, no `Handle` call, and the run goes on as the run
from the next iteration, which starts with a cancellation check. And a run that
returned without any call having panicked ended on a cancellation check that found
the context cancelled. -/
theorem ListenAndServe_accept_error_swallowed {σ κ : Type} (E : Serve σ κ) (fuel : Nat)
    (w : σ) :
    (∀ conn err w1, E.done w = false → E.accept w = (.ret conn (some err), w1) →
      ListenAndServe E (fuel + 1) w =
        (ListenAndServe E fuel w1).after [.ctxDone false, .accept (.ret conn (some err))]) ∧
    ((ListenAndServe E fuel w).completion = .returned →
      (∀ e ∈ (ListenAndServe E fuel w).trace, e.isPanic = false) →
      (∃ t0, (ListenAndServe E fuel w).trace = t0 ++ [.ctxDone true]) ∧
        E.done (ListenAndServe E fuel w).world = true) := by
  constructor
  · intro conn err w1 hd ha
    rw [ListenAndServe, serveLoop_accept_err E fuel w w1 conn err hd ha,
      recoverDeferred_after]
    rfl
  · intro hret hquiet
    rcases Completion.panicking_or_not (serveLoop E fuel w).completion with ⟨v, hv⟩ | hq
    · exfalso
      obtain ⟨t0, e, ht, he, _⟩ := serveLoop_panicking E fuel w v hv
      have hmem : e ∈ (ListenAndServe E fuel w).trace := by
        rw [ListenAndServe, recoverDeferred_of_panicking _ v hv, ht]
        simp
      have := hquiet e hmem
      simp [Event.isPanic, he] at this
    · have e : ListenAndServe E fuel w = serveLoop E fuel w := by
        rw [ListenAndServe, recoverDeferred_of_quiet _ hq]
      rw [e] at hret ⊢
      exact serveLoop_returned E fuel w hret

/-- A listener whose first `Accept` returns an error: the loop goes on, serves the
next handle and returns on cancellation. -/
theorem ListenAndServe_accept_error_swallowed_witness :
    (((scriptServe 2 0 9).done 0 = false ∧
        (scriptServe 2 0 9).accept 0 = (.ret none (some (.base 0)), 1)) ∧
      ListenAndServe (scriptServe 2 0 9) (4 + 1) 0 =
        (ListenAndServe (scriptServe 2 0 9) 4 1).after
          [.ctxDone false, .accept (.ret none (some (.base 0)))]) ∧
    (((ListenAndServe (scriptServe 2 0 9) 4 0).completion = .returned ∧
        ∀ e ∈ (ListenAndServe (scriptServe 2 0 9) 4 0).trace, e.isPanic = false) ∧
      (∃ t0, (ListenAndServe (scriptServe 2 0 9) 4 0).trace = t0 ++ [.ctxDone true]) ∧
        (scriptServe 2 0 9).done (ListenAndServe (scriptServe 2 0 9) 4 0).world = true) :=
  ⟨⟨⟨by decide, by decide⟩,
      (ListenAndServe_accept_error_swallowed (scriptServe 2 0 9) 4 0).1 none (.base 0) 1
        (by decide) (by decide)⟩,
    ⟨⟨by decide, by decide⟩,
      (ListenAndServe_accept_error_swallowed (scriptServe 2 0 9) 4 0).2
        (by decide) (by decide)⟩⟩

/-- C4. A run of `ListenAndServe` in which a call of `Handle` or of `Accept` panicked
returned normally to its caller; and no run of `ListenAndServe` ends in a panic. -/
theorem ListenAndServe_panic_recovered {σ κ : Type} (E : Serve σ κ) (fuel : Nat) (w : σ)
    (h : ∃ e ∈ (ListenAndServe E fuel w).trace, e.isPanic = true) :
    (ListenAndServe E fuel w).completion = .returned ∧
    ∀ (fuel1 : Nat) (w1 : σ) (v : PanicValue),
      (ListenAndServe E fuel1 w1).completion ≠ .panicking v := by
  constructor
  · rcases Completion.panicking_or_not (serveLoop E fuel w).completion with ⟨v, hv⟩ | hq
    · rw [ListenAndServe, recoverDeferred_of_panicking _ v hv]
    · exfalso
      obtain ⟨e, hmem, he⟩ := h
      rw [ListenAndServe, recoverDeferred_of_quiet _ hq] at hmem
      have := serveLoop_quiet E fuel w hq e hmem
      simp [Event.isPanic, this] at he
  · intro fuel1 w1 v
    rcases Completion.panicking_or_not (serveLoop E fuel1 w1).completion with ⟨v1, hv⟩ | hq
    · rw [ListenAndServe, recoverDeferred_of_panicking _ v1 hv]
      intro hc
      cases hc
    · rw [ListenAndServe, recoverDeferred_of_quiet _ hq]
      exact hq v

/-- A handler that panics on the second handle it is given. -/
theorem ListenAndServe_panic_recovered_witness :
    (∃ e ∈ (ListenAndServe (scriptServe 5 9 1) 4 0).trace, e.isPanic = true) ∧
    ((ListenAndServe (scriptServe 5 9 1) 4 0).completion = .returned ∧
      ∀ (fuel1 : Nat) (w1 : Nat) (v : PanicValue),
        (ListenAndServe (scriptServe 5 9 1) fuel1 w1).completion ≠ .panicking v) :=
  ⟨by decide, ListenAndServe_panic_recovered (scriptServe 5 9 1) 4 0 (by decide)⟩

/-- C5. The loop is documented as handling requests, blocking until close, and ought
to go on after a handler panic; the code does not. Here the handler panics on the
first handle, the context is not cancelled and the next `Accept` and `Handle` would
have worked, yet `ListenAndServe` has returned after a single `Accept` call, with
fuel left for three more iterations: the deferred `recover()` sits around the whole
function, not around one iteration. -/
theorem ListenAndServe_stops_at_handler_panic :
    ListenAndServe (scriptServe 5 9 0) 4 0 =
      ⟨.returned,
        [.ctxDone false, .accept (.ret (some 0) none),
         .handle (some 0) (.panicked (.val 0)), .printStack], 1⟩ ∧
    acceptCalls (ListenAndServe (scriptServe 5 9 0) 4 0).trace = 1 ∧
    (scriptServe 5 9 0).done 1 = false ∧
    (scriptServe 5 9 0).accept 1 = (.ret (some 1) none, 2) ∧
    (scriptServe 5 9 0).handle (some 1) 2 = (.ret, 2) := by
  decide

/-- The extent of the defect: in every run of `ListenAndServe` in which `Handle`
panics, the run ends there. The panic is recovered, `ListenAndServe` returns, and after
the panicking call the run holds nothing but the stack report (printed when the panic
value is not nil), so `Accept` is not called again and no later handle is handled. -/
theorem ListenAndServe_returns_at_handler_panic {σ κ : Type} (E : Serve σ κ) (fuel : Nat)
    (w : σ) (pre post : List (Event κ)) (conn : Option κ) (v : PanicValue)
    (h : (ListenAndServe E fuel w).trace = pre ++ .handle conn (.panicked v) :: post) :
    (ListenAndServe E fuel w).completion = .returned ∧
    post = (if v ≠ .nilValue then [.printStack] else []) ∧
    acceptCalls post = 0 ∧ handled post = [] := by
  have hpost : ∀ (u : PanicValue),
      acceptCalls (if u ≠ .nilValue then [(.printStack : Event κ)] else []) = 0 ∧
      handled (if u ≠ .nilValue then [(.printStack : Event κ)] else []) = [] := by
    intro u
    cases u with
    | nilValue => exact ⟨rfl, rfl⟩
    | val n => exact ⟨rfl, rfl⟩
  have hrep : ∀ (u : PanicValue) (x : Event κ),
      x ∈ (if u ≠ .nilValue then [(.printStack : Event κ)] else []) → x = .printStack := by
    intro u x hx
    cases u with
    | nilValue => simp at hx
    | val n => simpa using hx
  rcases Completion.panicking_or_not (serveLoop E fuel w).completion with ⟨v1, hv⟩ | hq
  · obtain ⟨t0, e, ht, he, h0⟩ := serveLoop_panicking E fuel w v1 hv
    have hc : (ListenAndServe E fuel w).completion = .returned := by
      rw [ListenAndServe, recoverDeferred_of_panicking _ v1 hv]
    rw [ListenAndServe, recoverDeferred_of_panicking _ v1 hv] at h
    simp only [ht, List.append_assoc, List.singleton_append] at h
    have key : e = .handle conn (.panicked v) ∧
        (if v1 ≠ .nilValue then [(.printStack : Event κ)] else []) = post := by
      rcases List.append_eq_append_iff.1 h with ⟨a, _, hb⟩ | ⟨c, hc1, hc2⟩
      · cases a with
        | nil =>
          simp only [List.nil_append, List.cons.injEq] at hb
          exact hb
        | cons x a =>
          exfalso
          simp only [List.cons_append, List.cons.injEq] at hb
          have hm : (.handle conn (.panicked v) : Event κ) ∈
              (if v1 ≠ .nilValue then [(.printStack : Event κ)] else []) := by
            rw [hb.2]
            simp
          have := hrep v1 _ hm
          cases this
      · cases c with
        | nil =>
          simp only [List.nil_append, List.cons.injEq] at hc2
          exact ⟨hc2.1.symm, hc2.2.symm⟩
        | cons y c =>
          exfalso
          simp only [List.cons_append, List.cons.injEq] at hc2
          have hm : (.handle conn (.panicked v) : Event κ) ∈ t0 := by
            rw [hc1, ← hc2.1]
            simp
          have := h0 _ hm
          simp [Event.panicValue] at this
    obtain ⟨hev, hp⟩ := key
    rw [hev] at he
    simp only [Event.panicValue, Option.some.injEq] at he
    subst he
    subst hp
    exact ⟨hc, rfl, hpost v⟩
  · exfalso
    rw [ListenAndServe, recoverDeferred_of_quiet _ hq] at h
    have hm : (.handle conn (.panicked v) : Event κ) ∈ (serveLoop E fuel w).trace := by
      rw [h]
      simp
    have := serveLoop_quiet E fuel w hq _ hm
    simp [Event.panicValue] at this

/-- A handler that panics on the second handle: the run ends with that call and the
stack report. -/
theorem ListenAndServe_returns_at_handler_panic_witness :
    (ListenAndServe (scriptServe 5 9 1) 4 0).trace =
      [.ctxDone false, .accept (.ret (some 0) none), .handle (some 0) .ret,
       .ctxDone false, .accept (.ret (some 1) none)] ++
        .handle (some 1) (.panicked (.val 1)) :: [.printStack] ∧
    ((ListenAndServe (scriptServe 5 9 1) 4 0).completion = .returned ∧
      [(.printStack : Event Nat)] =
        (if PanicValue.val 1 ≠ .nilValue then [.printStack] else []) ∧
      acceptCalls [(.printStack : Event Nat)] = 0 ∧
      handled [(.printStack : Event Nat)] = []) :=
  ⟨by decide,
    ListenAndServe_returns_at_handler_panic (scriptServe 5 9 1) 4 0
      [.ctxDone false, .accept (.ret (some 0) none), .handle (some 0) .ret,
       .ctxDone false, .accept (.ret (some 1) none)]
      [.printStack] (some 1) (.val 1) (by decide)⟩

end Quicx
